import Mathlib

/-!
Verification of the OBJ-to-SVG projector of the BFF Fabric Flattener
(`BFFProcessor._convert_to_svg` in `src/main.py`).

The conversion is embedded shallowly:
* the input file is a list of text lines (as produced by Python text-mode
  line iteration, without trailing newlines, which the routine strips anyway);
* coordinates are modeled as exact rationals.  The Python code computes with
  IEEE doubles; the special float values produced by the strings inf and nan
  and binary rounding are outside the model, which covers the exact-arithmetic
  content of the routine.  Numeric-literal parsing follows the grammar of
  Python float and int applied to whitespace-free fields, restricted to
  ASCII digits, including optional sign, decimal point, exponent, and
  PEP 515 underscore separators between digits;
* the written SVG file is modeled structurally as the canvas size plus the
  list of emitted polygons (each a list of transformed points); the textual
  serialization is an injective rendering of this structure;
* the outcome of a conversion call is a result value: an output path plus
  document (the single file write), a skip (no texture coordinates), or an
  error (a Python exception reaching the try/except wrapper, after which
  nothing is written).
-/

attribute [local semireducible] Rat.add Rat.sub Rat.mul Rat.inv

deriving instance DecidableEq for Except

/-- Python str whitespace test, restricted to the ASCII whitespace
characters recognized by str.strip and str.split. -/
def pyIsSpace (c : Char) : Bool :=
  c = ' ' || c = '\t' || c = '\n' || c = '\r' || c = '\x0b' || c = '\x0c'

/-- Python str.strip on a character list: remove leading and trailing
whitespace. -/
def stripL (l : List Char) : List Char :=
  ((l.dropWhile pyIsSpace).reverse.dropWhile pyIsSpace).reverse

/-- Split a character list at every character satisfying the predicate,
keeping empty groups; mirrors Python str.split with an explicit separator
(for a one-character separator) when the predicate tests that character. -/
def splitOnP (p : Char → Bool) : List Char → List (List Char)
  | [] => [[]]
  | c :: rest =>
    match splitOnP p rest with
    | [] => if p c then [[], []] else [[c]]
    | g :: gs => if p c then [] :: g :: gs else (c :: g) :: gs

/-- Python str.split with no argument: split on whitespace runs, dropping
empty fields. -/
def splitWS (l : List Char) : List (List Char) :=
  (splitOnP pyIsSpace l).filter (fun g => g ≠ [])

/-- Python str.startswith for character lists. -/
def startsWithL : List Char → List Char → Bool
  | [], _ => true
  | _ :: _, [] => false
  | p :: ps, c :: cs => p = c && startsWithL ps cs

/-- Numeric value of an ASCII digit character. -/
def digitVal (c : Char) : Nat := c.toNat - 48

/-- Consume a run of ASCII digits that may contain single underscores
strictly between digits (PEP 515), accumulating the value and the digit
count; called after an initial digit has been consumed.  Returns the value,
the number of digits consumed so far, and the unconsumed remainder. -/
def digRun : List Char → Nat → Nat → Nat × Nat × List Char
  | '_' :: d :: rest, acc, n =>
    if d.isDigit then digRun rest (acc * 10 + digitVal d) (n + 1)
    else (acc, n, '_' :: d :: rest)
  | c :: rest, acc, n =>
    if c.isDigit then digRun rest (acc * 10 + digitVal c) (n + 1)
    else (acc, n, c :: rest)
  | [], acc, n => (acc, n, [])

/-- A nonempty digit run (with embedded underscores allowed between digits):
the first character must be a digit.  Returns value, digit count, rest. -/
def pyDigits : List Char → Option (Nat × Nat × List Char)
  | c :: rest => if c.isDigit then some (digRun rest (digitVal c) 1) else none
  | [] => none

/-- Optional leading sign; returns whether the value is negated and the
remainder. -/
def parseSign : List Char → Bool × List Char
  | '-' :: rest => (true, rest)
  | '+' :: rest => (false, rest)
  | l => (false, l)

/-- Python int applied to a whitespace-free string (base 10): optional sign
followed by a digit run consuming the whole string. -/
def parseInt (l : List Char) : Option ℤ :=
  let s := parseSign l
  match pyDigits s.2 with
  | some (v, _, []) => some (if s.1 then -(v : ℤ) else (v : ℤ))
  | _ => none

/-- Exponent part of a float literal, after the e marker: optional sign and
a digit run consuming the rest. -/
def parseExpPart (l : List Char) : Option ℤ :=
  let s := parseSign l
  match pyDigits s.2 with
  | some (v, _, []) => some (if s.1 then -(v : ℤ) else (v : ℤ))
  | _ => none

/-- Mantissa of a float literal (after the sign): either a leading digit run
with an optional fractional part, or a leading decimal point followed by a
mandatory digit run.  Returns the exact rational value and the remainder. -/
def parseMantissa (l : List Char) : Option (ℚ × List Char) :=
  match l with
  | '.' :: rest =>
    match pyDigits rest with
    | some (f, k, rest2) => some ((f : ℚ) / (10 : ℚ) ^ k, rest2)
    | none => none
  | _ =>
    match pyDigits l with
    | some (ip, _, rest) =>
      match rest with
      | '.' :: rest2 =>
        match pyDigits rest2 with
        | some (f, k, rest3) => some ((ip : ℚ) + (f : ℚ) / (10 : ℚ) ^ k, rest3)
        | none => some ((ip : ℚ), rest2)
      | _ => some ((ip : ℚ), rest)
    | none => none

/-- Python float applied to a whitespace-free string, on the finite decimal
literals: optional sign, mantissa, optional exponent; the whole string must
be consumed.  Returns the exact rational value. -/
def parseFloat (l : List Char) : Option ℚ :=
  let s := parseSign l
  match parseMantissa s.2 with
  | none => none
  | some (m, rest) =>
    match rest with
    | [] => some (if s.1 then -m else m)
    | 'e' :: rest2 => (parseExpPart rest2).map fun e => (if s.1 then -m else m) * (10 : ℚ) ^ e
    | 'E' :: rest2 => (parseExpPart rest2).map fun e => (if s.1 then -m else m) * (10 : ℚ) ^ e
    | _ => none

/-- The Python exceptions the parsing code can raise: ValueError from float,
ValueError from int, IndexError from subscripting the split fields. -/
inductive PyErr where
  | valueErrorFloat
  | valueErrorInt
  | indexError
deriving DecidableEq

/-- Parse one texture-coordinate line (main.py lines 116-120): strip, split
on whitespace, convert fields 1 and 2 with float.  Field 1 is converted
before field 2 is subscripted, matching Python evaluation order. -/
def parseVt (line : List Char) : Except PyErr (ℚ × ℚ) :=
  match splitWS (stripL line) with
  | _ :: p1 :: p2 :: _ =>
    match parseFloat p1, parseFloat p2 with
    | some u, some v => .ok (u, v)
    | _, _ => .error .valueErrorFloat
  | _ :: p1 :: [] =>
    match parseFloat p1 with
    | some _ => .error .indexError
    | none => .error .valueErrorFloat
  | _ => .error .indexError

/-- Parse one face-corner descriptor (main.py lines 125-130): split on the
slash; when at least two fields exist and the second is nonempty, convert it
with int and subtract one (OBJ indices are 1-based); otherwise the corner is
silently dropped. -/
def parseCorner (part : List Char) : Except PyErr (Option ℤ) :=
  let indices := splitOnP (fun c => c = '/') part
  if 2 ≤ indices.length ∧ indices.getD 1 [] ≠ [] then
    match parseInt (indices.getD 1 []) with
    | some n => .ok (some (n - 1))
    | none => .error .valueErrorInt
  else .ok none

/-- Parse the corner descriptors of a face line in order, keeping the
resolved texture indices and propagating the first exception. -/
def parseCorners : List (List Char) → Except PyErr (List ℤ)
  | [] => .ok []
  | p :: ps =>
    match parseCorner p with
    | .error e => .error e
    | .ok none => parseCorners ps
    | .ok (some i) =>
      match parseCorners ps with
      | .error e => .error e
      | .ok rest => .ok (i :: rest)

/-- Parse one face line (main.py lines 121-132): strip, split on whitespace,
drop the leading f token, parse the corners. -/
def parseFaceLine (line : List Char) : Except PyErr (List ℤ) :=
  parseCorners ((splitWS (stripL line)).drop 1)

/-- The parse loop of main.py lines 114-132, accumulating the vertex and
face sequences; a face whose corner list is empty is not stored. -/
def parseLinesAux : List (List Char) → List (ℚ × ℚ) → List (List ℤ) →
    Except PyErr (List (ℚ × ℚ) × List (List ℤ))
  | [], vs, fs => .ok (vs, fs)
  | line :: rest, vs, fs =>
    if startsWithL "vt ".toList line then
      match parseVt line with
      | .error e => .error e
      | .ok uv => parseLinesAux rest (vs ++ [uv]) fs
    else if startsWithL "f ".toList line then
      match parseFaceLine line with
      | .error e => .error e
      | .ok [] => parseLinesAux rest vs fs
      | .ok corners => parseLinesAux rest vs (fs ++ [corners])
    else parseLinesAux rest vs fs

/-- Parse a whole file given as its list of lines. -/
def parseLines (lines : List (List Char)) :
    Except PyErr (List (ℚ × ℚ) × List (List ℤ)) :=
  parseLinesAux lines [] []

/-- Minimum of a rational list, as Python min over a nonempty sequence (the
default for the empty list is never reached in the conversion, which returns
before computing bounds when the vertex list is empty). -/
def listMin : List ℚ → ℚ
  | [] => 0
  | x :: xs => xs.foldl min x

/-- Maximum of a rational list, as Python max over a nonempty sequence. -/
def listMax : List ℚ → ℚ
  | [] => 0
  | x :: xs => xs.foldl max x

/-- The fixed padding constant of main.py line 145. -/
def padding : ℚ := 10

/-- The fixed scale constant of main.py line 146. -/
def scale : ℚ := 500

/-- The projection of main.py lines 164-165: shift by the minimum u, flip
the v axis at the maximum v, scale, and pad. -/
def transformPt (minU maxV : ℚ) (p : ℚ × ℚ) : ℚ × ℚ :=
  ((p.1 - minU) * scale + padding, (maxV - p.2) * scale + padding)

/-- The point list of one face (main.py lines 160-166): each index whose
value is inside the vertex range contributes its transformed vertex;
out-of-range indices contribute nothing, and the vertex list is only ever
subscripted under the range guard. -/
def facePoints (vs : List (ℚ × ℚ)) (minU maxV : ℚ) (face : List ℤ) :
    List (ℚ × ℚ) :=
  face.filterMap fun idx =>
    if h : 0 ≤ idx ∧ idx.toNat < vs.length then
      some (transformPt minU maxV (vs.get ⟨idx.toNat, h.2⟩))
    else none

/-- Emission decision for one face (main.py lines 157-170): a face of fewer
than three stored corners is skipped; otherwise a polygon is emitted exactly
when the point list is nonempty (the Python truthiness test on points). -/
def emitFace (vs : List (ℚ × ℚ)) (minU maxV : ℚ) (face : List ℤ) :
    Option (List (ℚ × ℚ)) :=
  if face.length < 3 then none
  else if facePoints vs minU maxV face = [] then none
  else some (facePoints vs minU maxV face)

/-- All emitted polygons, in face order. -/
def emitFaces (vs : List (ℚ × ℚ)) (minU maxV : ℚ) (faces : List (List ℤ)) :
    List (List (ℚ × ℚ)) :=
  faces.filterMap (emitFace vs minU maxV)

/-- Structural model of the written SVG document: canvas size and emitted
polygons (main.py lines 147-173). -/
structure SvgDoc where
  width : ℚ
  height : ℚ
  polys : List (List (ℚ × ℚ))
deriving DecidableEq

/-- Build the document from the parsed vertices and faces (main.py lines
138-173): bounds by componentwise min and max, canvas from the bounds and
the two constants, one polygon per emitted face. -/
def mkDoc (vs : List (ℚ × ℚ)) (faces : List (List ℤ)) : SvgDoc :=
  let minU := listMin (vs.map Prod.fst)
  let maxU := listMax (vs.map Prod.fst)
  let minV := listMin (vs.map Prod.snd)
  let maxV := listMax (vs.map Prod.snd)
  { width := (maxU - minU) * scale + 2 * padding
    height := (maxV - minV) * scale + 2 * padding
    polys := emitFaces vs minU maxV faces }

/-- Number of indices of a face that are inside the vertex range. -/
def validCount (vs : List (ℚ × ℚ)) (face : List ℤ) : Nat :=
  (face.filter fun i => decide (0 ≤ i ∧ i.toNat < vs.length)).length

/-- Python obj_file.rsplit with the dot separator and maxsplit one, first
component: the list up to the last dot, or the whole list when it has no
dot (main.py line 108). -/
def rstem (s : List Char) : List Char :=
  match s.reverse.dropWhile (fun c => c != '.') with
  | [] => s
  | _ :: rest => rest.reverse

/-- The derived output path as a character list: the rsplit stem with the
svg extension appended. -/
def svgPathL (s : List Char) : List Char := rstem s ++ ".svg".toList

/-- The derived output path (main.py line 108). -/
def svgPath (s : String) : String := String.mk (svgPathL s.toList)

/-- Outcome of one conversion call: the single file write with its path and
document, the no-texture-coordinates skip (main.py lines 134-136), or an
exception reaching the except handler (main.py lines 180-181), after which
no file has been written. -/
inductive ConvResult where
  | ok (path : String) (doc : SvgDoc)
  | skipped
  | err (e : PyErr)
deriving DecidableEq

/-- Whether the result is an exception outcome. -/
def isErr : ConvResult → Bool
  | .err _ => true
  | _ => false

/-- Whether the result wrote an output file. -/
def writesOutput : ConvResult → Bool
  | .ok _ _ => true
  | _ => false

/-- The document of a successful result. -/
def resultDoc : ConvResult → Option SvgDoc
  | .ok _ d => some d
  | _ => none

/-- The whole conversion (`BFFProcessor._convert_to_svg`, main.py lines
104-181): parse, skip when no texture coordinates were found, otherwise
build the document and write it to the derived path. -/
def convertToSvg (objFile : String) (lines : List String) : ConvResult :=
  match parseLines (lines.map String.toList) with
  | .error e => .err e
  | .ok (vs, fs) =>
    if vs = [] then .skipped
    else .ok (String.mk (svgPathL objFile.toList)) (mkDoc vs fs)

/-- Whether a line is recognized as a texture-coordinate line (main.py
line 116). -/
def isVtLine (line : String) : Bool := startsWithL "vt ".toList line.toList

/-- A texture-coordinate line whose numeric fields are present but at least
one of them is malformed: the shape of the failing lines of claim C2. -/
def badVtLine (line : List Char) : Prop :=
  startsWithL "vt ".toList line = true ∧
  3 ≤ (splitWS (stripL line)).length ∧
  (parseFloat ((splitWS (stripL line)).getD 1 []) = none ∨
   parseFloat ((splitWS (stripL line)).getD 2 []) = none)

instance (line : List Char) : Decidable (badVtLine line) := by
  unfold badVtLine; infer_instance

/-! ## Helper lemmas -/

theorem foldl_min_le (l : List ℚ) : ∀ a : ℚ,
    l.foldl min a ≤ a ∧ ∀ x ∈ l, l.foldl min a ≤ x := by
  induction l with
  | nil => intro a; simp
  | cons y t ih =>
    intro a
    refine ⟨?_, ?_⟩
    · exact le_trans (ih (min a y)).1 (min_le_left a y)
    · intro x hx
      rcases List.mem_cons.mp hx with rfl | hx
      · exact le_trans (ih (min a x)).1 (min_le_right a x)
      · exact (ih (min a y)).2 x hx

theorem le_foldl_max (l : List ℚ) : ∀ a : ℚ,
    a ≤ l.foldl max a ∧ ∀ x ∈ l, x ≤ l.foldl max a := by
  induction l with
  | nil => intro a; simp
  | cons y t ih =>
    intro a
    refine ⟨?_, ?_⟩
    · exact le_trans (le_max_left a y) (ih (max a y)).1
    · intro x hx
      rcases List.mem_cons.mp hx with rfl | hx
      · exact le_trans (le_max_right a x) (ih (max a x)).1
      · exact (ih (max a y)).2 x hx

theorem listMin_le_of_mem {l : List ℚ} {x : ℚ} (h : x ∈ l) : listMin l ≤ x := by
  cases l with
  | nil => cases h
  | cons y t =>
    rcases List.mem_cons.mp h with rfl | hx
    · exact (foldl_min_le t x).1
    · exact (foldl_min_le t y).2 x hx

theorem le_listMax_of_mem {l : List ℚ} {x : ℚ} (h : x ∈ l) : x ≤ listMax l := by
  cases l with
  | nil => cases h
  | cons y t =>
    rcases List.mem_cons.mp h with rfl | hx
    · exact (le_foldl_max t x).1
    · exact (le_foldl_max t y).2 x hx

theorem facePoints_eq_nil_iff (vs : List (ℚ × ℚ)) (minU maxV : ℚ)
    (face : List ℤ) :
    facePoints vs minU maxV face = [] ↔
      ∀ i ∈ face, ¬(0 ≤ i ∧ i.toNat < vs.length) := by
  unfold facePoints
  rw [List.filterMap_eq_nil_iff]
  constructor
  · intro h i hi hc
    have := h i hi
    rw [dif_pos hc] at this
    cases this
  · intro h i hi
    rw [dif_neg (h i hi)]

theorem mem_facePoints {vs : List (ℚ × ℚ)} {minU maxV : ℚ} {face : List ℤ}
    {pt : ℚ × ℚ} (h : pt ∈ facePoints vs minU maxV face) :
    ∃ v ∈ vs, pt = transformPt minU maxV v := by
  unfold facePoints at h
  rcases List.mem_filterMap.mp h with ⟨i, hi, hf⟩
  by_cases hc : 0 ≤ i ∧ i.toNat < vs.length
  · rw [dif_pos hc] at hf
    exact ⟨vs.get ⟨i.toNat, hc.2⟩, List.get_mem vs _ _, (Option.some.inj hf).symm⟩
  · rw [dif_neg hc] at hf
    cases hf


/-! ## Claim C1 -/

/-- Claim C1, as stated, is false on the code: the input below parses one
texture vertex and one face of three stored corners of which only one is in
range (valid count 1 < 3), yet a polygon element (with a single point) is
emitted, because the emitter only skips faces of fewer than three stored
corners and then emits whenever the point list is nonempty. -/
theorem emit_polygon_for_underresolved_face :
    convertToSvg "m.obj" ["vt 0 0", "f 1/1 1/9 1/9"] =
      .ok "m.svg" { width := 20, height := 20, polys := [[(10, 10)]] } ∧
    validCount [(0, 0)] [0, 8, 8] = 1 := by
  constructor
  · decide
  · decide

/-- Claim C1 amended: a face stored with fewer than three corners produces
no polygon element; a face stored with at least three corners produces a
polygon element exactly when at least one of its indices is inside the
vertex range, even when fewer than three are. -/
theorem emitFace_degenerate_spec (vs : List (ℚ × ℚ)) (minU maxV : ℚ)
    (face : List ℤ) :
    (face.length < 3 → emitFace vs minU maxV face = none) ∧
    (3 ≤ face.length →
      ((emitFace vs minU maxV face).isSome = true ↔
        ∃ i ∈ face, 0 ≤ i ∧ i.toNat < vs.length)) := by
  constructor
  · intro h
    unfold emitFace
    rw [if_pos h]
  · intro h3
    unfold emitFace
    rw [if_neg (by omega)]
    by_cases he : facePoints vs minU maxV face = []
    · rw [if_pos he]
      simp only [Option.isSome_none, Bool.false_eq_true, false_iff]
      rintro ⟨i, hi, hc⟩
      exact (facePoints_eq_nil_iff vs minU maxV face).mp he i hi hc
    · rw [if_neg he]
      simp only [Option.isSome_some, true_iff]
      by_contra hnone
      push_neg at hnone
      refine he ((facePoints_eq_nil_iff vs minU maxV face).mpr ?_)
      intro i hi hc
      exact absurd hc.2 (not_lt.mpr (hnone i hi hc.1))

/-- Witness for the amended claim C1 at a concrete degenerate face. -/
theorem emitFace_degenerate_spec_witness :
    emitFace ([] : List (ℚ × ℚ)) 0 0 [5] = none :=
  (emitFace_degenerate_spec [] 0 0 [5]).1 (by decide)

/-! ## Claim C5 -/

/-- Claim C5: every point of every emitted polygon of a document lies inside
the padded canvas: padding ≤ x ≤ width − padding and padding ≤ y ≤ height −
padding, the bounds being derived from the same vertex set being rendered. -/
theorem emitted_points_within_padding (vs : List (ℚ × ℚ))
    (faces : List (List ℤ)) (poly : List (ℚ × ℚ)) (pt : ℚ × ℚ)
    (hpoly : poly ∈ (mkDoc vs faces).polys) (hpt : pt ∈ poly) :
    padding ≤ pt.1 ∧ pt.1 ≤ (mkDoc vs faces).width - padding ∧
    padding ≤ pt.2 ∧ pt.2 ≤ (mkDoc vs faces).height - padding := by
  simp only [mkDoc, emitFaces] at hpoly ⊢
  obtain ⟨face, hface, hemit⟩ := List.mem_filterMap.mp hpoly
  unfold emitFace at hemit
  by_cases h3 : face.length < 3
  · rw [if_pos h3] at hemit; cases hemit
  · rw [if_neg h3] at hemit
    by_cases he : facePoints vs (listMin (vs.map Prod.fst))
        (listMax (vs.map Prod.snd)) face = []
    · rw [if_pos he] at hemit; cases hemit
    · rw [if_neg he] at hemit
      have hmem : pt ∈ facePoints vs (listMin (vs.map Prod.fst))
          (listMax (vs.map Prod.snd)) face := by
        rw [Option.some.inj hemit]; exact hpt
      obtain ⟨v, hv, rfl⟩ := mem_facePoints hmem
      have hminU : listMin (vs.map Prod.fst) ≤ v.1 :=
        listMin_le_of_mem (List.mem_map_of_mem Prod.fst hv)
      have hmaxU : v.1 ≤ listMax (vs.map Prod.fst) :=
        le_listMax_of_mem (List.mem_map_of_mem Prod.fst hv)
      have hminV : listMin (vs.map Prod.snd) ≤ v.2 :=
        listMin_le_of_mem (List.mem_map_of_mem Prod.snd hv)
      have hmaxV : v.2 ≤ listMax (vs.map Prod.snd) :=
        le_listMax_of_mem (List.mem_map_of_mem Prod.snd hv)
      simp only [transformPt, padding, scale]
      refine ⟨by linarith, by linarith, by linarith, by linarith⟩

/-- Witness for claim C5 at the unit-square vertex set. -/
theorem emitted_points_within_padding_witness :
    padding ≤ (((10 : ℚ), (510 : ℚ))).1 ∧
    (((10 : ℚ), (510 : ℚ))).1 ≤
      (mkDoc [(0, 0), (1, 0), (1, 1), (0, 1)] [[0, 1, 2]]).width - padding ∧
    padding ≤ (((10 : ℚ), (510 : ℚ))).2 ∧
    (((10 : ℚ), (510 : ℚ))).2 ≤
      (mkDoc [(0, 0), (1, 0), (1, 1), (0, 1)] [[0, 1, 2]]).height - padding :=
  emitted_points_within_padding [(0, 0), (1, 0), (1, 1), (0, 1)] [[0, 1, 2]]
    [(10, 510), (510, 510), (510, 10)] (10, 510) (by decide) (by decide)

/-! ## Claim C7 -/

/-- Claim C7: an index outside the vertex range contributes no point to its
face (it is skipped, and vertex lookup in the embedding happens only under
the range guard), and emission over a face list splits over concatenation,
so a face with bad indices never aborts the emission of the remaining
document. -/
theorem out_of_range_index_skipped (vs : List (ℚ × ℚ)) (minU maxV : ℚ)
    (xs ys : List ℤ) (j : ℤ) (fs gs : List (List ℤ))
    (hj : ¬(0 ≤ j ∧ j.toNat < vs.length)) :
    facePoints vs minU maxV (xs ++ j :: ys) =
      facePoints vs minU maxV (xs ++ ys) ∧
    emitFaces vs minU maxV (fs ++ gs) =
      emitFaces vs minU maxV fs ++ emitFaces vs minU maxV gs := by
  constructor
  · unfold facePoints
    simp only [List.filterMap_append]
    congr 1
    rw [List.filterMap_cons]
    simp only [dif_neg hj]
  · unfold emitFaces
    exact List.filterMap_append fs gs (emitFace vs minU maxV)

/-- Witness for claim C7 at a concrete out-of-range index. -/
theorem out_of_range_index_skipped_witness :
    facePoints [(0, 0)] 0 0 ([0] ++ 5 :: []) = facePoints [(0, 0)] 0 0 ([0] ++ []) ∧
    emitFaces [(0, 0)] 0 0 ([[0, 1, 2]] ++ []) =
      emitFaces [(0, 0)] 0 0 [[0, 1, 2]] ++ emitFaces [(0, 0)] 0 0 [] :=
  out_of_range_index_skipped [(0, 0)] 0 0 [0] [] 5 [[0, 1, 2]] [] (by decide)

/-! ## Claim C2 -/

/-- A texture-coordinate line with a malformed numeric field always raises
ValueError in the line parser. -/
theorem parseVt_err_of_badVt (line : List Char) (h : badVtLine line) :
    parseVt line = .error .valueErrorFloat := by
  obtain ⟨hstart, hlen, hbad⟩ := h
  rcases hp : splitWS (stripL line) with _ | ⟨a, _ | ⟨b, _ | ⟨c, t⟩⟩⟩ <;>
    rw [hp] at hlen hbad
  · simp at hlen
  · simp at hlen
  · simp at hlen
  · simp only [List.getD_cons_succ, List.getD_cons_zero] at hbad
    unfold parseVt
    rw [hp]
    cases hb2 : parseFloat b with
    | none =>
      cases hc2 : parseFloat c with
      | none => simp only [hb2, hc2]
      | some w => simp only [hb2, hc2]
    | some u =>
      cases hc2 : parseFloat c with
      | none => simp only [hb2, hc2]
      | some w =>
        exfalso
        rcases hbad with hb | hc
        · rw [hb2] at hb; cases hb
        · rw [hc2] at hc; cases hc

/-- If any line of the remaining input is a malformed texture-coordinate
line, the parse loop ends in an error, whatever its accumulated state. -/
theorem parseAux_err_of_mem_badVt (ls : List (List Char)) :
    ∀ (vs : List (ℚ × ℚ)) (fs : List (List ℤ)) (line : List Char),
      line ∈ ls → badVtLine line →
      ∃ e, parseLinesAux ls vs fs = .error e := by
  induction ls with
  | nil => intro vs fs line h; cases h
  | cons l rest ih =>
    intro vs fs line hmem hbad
    rcases List.mem_cons.mp hmem with rfl | hmem2
    · have hstart := hbad.1
      have he := parseVt_err_of_badVt line hbad
      exact ⟨.valueErrorFloat, by simp only [parseLinesAux, hstart, if_true, he]⟩
    · simp only [parseLinesAux]
      cases hs1 : startsWithL "vt ".toList l with
      | true =>
        simp only [if_true]
        cases hv : parseVt l with
        | error e => exact ⟨e, rfl⟩
        | ok uv => exact ih (vs ++ [uv]) fs line hmem2 hbad
      | false =>
        simp only [Bool.false_eq_true, if_false]
        cases hs2 : startsWithL "f ".toList l with
        | true =>
          simp only [if_true]
          cases hf : parseFaceLine l with
          | error e => exact ⟨e, rfl⟩
          | ok corners =>
            cases corners with
            | nil => exact ih vs fs line hmem2 hbad
            | cons c cs => exact ih vs (fs ++ [c :: cs]) line hmem2 hbad
        | false =>
          simp only [Bool.false_eq_true, if_false]
          exact ih vs fs line hmem2 hbad

/-- Claim C2: an input containing a texture-coordinate line with a malformed
numeric field makes the conversion fail with a parse error, and no output
file is written. -/
theorem malformed_vt_line_aborts (f : String) (lines : List String)
    (line : String) (hmem : line ∈ lines) (hbad : badVtLine line.toList) :
    isErr (convertToSvg f lines) = true ∧
    writesOutput (convertToSvg f lines) = false := by
  obtain ⟨e, he⟩ := parseAux_err_of_mem_badVt (lines.map String.toList) [] []
    line.toList (List.mem_map_of_mem String.toList hmem) hbad
  unfold convertToSvg parseLines
  rw [he]
  exact ⟨rfl, rfl⟩

/-- Witness for claim C2 on the spec example vt 1.0 abc. -/
theorem malformed_vt_line_aborts_witness :
    isErr (convertToSvg "a.obj" ["vt 1.0 abc"]) = true ∧
    writesOutput (convertToSvg "a.obj" ["vt 1.0 abc"]) = false :=
  malformed_vt_line_aborts "a.obj" ["vt 1.0 abc"] "vt 1.0 abc" (by decide)
    (by decide)

/-! ## Claim C4 -/

/-- When no remaining line is recognized as a texture-coordinate line, the
parse loop either raises (a face-line exception) or returns with the vertex
accumulator unchanged. -/
theorem parseAux_novt (ls : List (List Char)) :
    ∀ (vs : List (ℚ × ℚ)) (fs : List (List ℤ)),
      (∀ l ∈ ls, startsWithL "vt ".toList l = false) →
      (∃ e, parseLinesAux ls vs fs = .error e) ∨
      ∃ fs2, parseLinesAux ls vs fs = .ok (vs, fs2) := by
  induction ls with
  | nil => intro vs fs _; exact Or.inr ⟨fs, rfl⟩
  | cons l rest ih =>
    intro vs fs h
    have hl := h l (List.mem_cons_self l rest)
    have hrest : ∀ x ∈ rest, startsWithL "vt ".toList x = false :=
      fun x hx => h x (List.mem_cons_of_mem l hx)
    simp only [parseLinesAux, hl, Bool.false_eq_true, if_false]
    cases hs2 : startsWithL "f ".toList l with
    | true =>
      simp only [if_true]
      cases hf : parseFaceLine l with
      | error e => exact Or.inl ⟨e, rfl⟩
      | ok corners =>
        cases corners with
        | nil => exact ih vs fs hrest
        | cons c cs => exact ih vs (fs ++ [c :: cs]) hrest
    | false =>
      simp only [Bool.false_eq_true, if_false]
      exact ih vs fs hrest

/-- Claim C4 amended: an input with zero texture-coordinate lines never
writes an output document, and whenever its parse succeeds (no face line
raises), the conversion reports exactly the non-error no-projectable-data
skip status (a malformed face corner on such an input surfaces as an error
instead — see the counterexample). -/
theorem no_vt_lines_skip (f : String) (lines : List String)
    (h : ∀ l ∈ lines, isVtLine l = false) :
    writesOutput (convertToSvg f lines) = false ∧
    (convertToSvg f lines = .skipped ∨ isErr (convertToSvg f lines) = true) ∧
    (∀ (vs : List (ℚ × ℚ)) (fs : List (List ℤ)),
      parseLines (lines.map String.toList) = .ok (vs, fs) →
      convertToSvg f lines = .skipped) := by
  have h2 : ∀ l ∈ lines.map String.toList,
      startsWithL "vt ".toList l = false := by
    intro l hl
    obtain ⟨s, hs, rfl⟩ := List.mem_map.mp hl
    exact h s hs
  rcases parseAux_novt (lines.map String.toList) [] [] h2 with ⟨e, he⟩ | ⟨fs2, hok⟩
  · refine ⟨?_, Or.inr ?_, ?_⟩
    · unfold convertToSvg parseLines
      rw [he]
      rfl
    · unfold convertToSvg parseLines
      rw [he]
      rfl
    · intro vs fs hok2
      unfold parseLines at hok2
      rw [he] at hok2
      cases hok2
  · have hskip : convertToSvg f lines = .skipped := by
      unfold convertToSvg parseLines
      rw [hok]
      rfl
    exact ⟨by rw [hskip]; rfl, Or.inl hskip, fun vs fs _ => hskip⟩

/-- Witness for the amended claim C4: on a concrete input with no vt line
and a raise-free parse, the reported status is exactly the skip. -/
theorem no_vt_lines_skip_witness :
    convertToSvg "a.obj" ["v 0 0 0"] = .skipped :=
  (no_vt_lines_skip "a.obj" ["v 0 0 0"] (by decide)).2.2 [] [] (by decide)

/-- Claim C4, as stated, is false on the code: this input has zero
texture-coordinate lines, yet the conversion reports the ValueError raised
by int on the face corner, not the no-projectable-data skip status (no
output document is written in either case). -/
theorem face_int_error_masks_skip_status :
    isVtLine "f 1/abc" = false ∧
    convertToSvg "a.obj" ["f 1/abc"] = .err .valueErrorInt ∧
    convertToSvg "a.obj" ["f 1/abc"] ≠ .skipped := by
  exact ⟨by decide, by decide, by decide⟩

/-! ## Claim C6 -/

/-- Claim C6 amended: a corner descriptor is stored exactly when its
slash-delimited texture-index field is present, nonempty, and parses as an
integer, the stored index being that value minus one (so 5/3/2 stores 2);
a present, nonempty field that int rejects raises ValueError instead of
being omitted, aborting the parse. -/
theorem parseCorner_spec (part : List Char) (i : ℤ) :
    (parseCorner part = .ok (some i) ↔
      2 ≤ (splitOnP (fun c => c = '/') part).length ∧
      (splitOnP (fun c => c = '/') part).getD 1 [] ≠ [] ∧
      ∃ n, parseInt ((splitOnP (fun c => c = '/') part).getD 1 []) = some n ∧
        i = n - 1) ∧
    (2 ≤ (splitOnP (fun c => c = '/') part).length →
      (splitOnP (fun c => c = '/') part).getD 1 [] ≠ [] →
      parseInt ((splitOnP (fun c => c = '/') part).getD 1 []) = none →
      parseCorner part = .error .valueErrorInt) ∧
    parseCorner "5/3/2".toList = .ok (some 2) := by
  refine ⟨?_, ?_, by decide⟩
  · by_cases hc : 2 ≤ (splitOnP (fun c => c = '/') part).length ∧
        (splitOnP (fun c => c = '/') part).getD 1 [] ≠ []
    · simp only [parseCorner, if_pos hc]
      cases hn : parseInt ((splitOnP (fun c => c = '/') part).getD 1 []) with
      | some n =>
        simp only [hn, hc.1, hc.2, true_and, ne_eq, not_false_iff,
          Except.ok.injEq, Option.some.injEq]
        constructor
        · rintro rfl
          exact ⟨n, rfl, rfl⟩
        · rintro ⟨n2, rfl, rfl⟩
          rfl
      | none =>
        simp only [hn]
        constructor
        · intro h; cases h
        · rintro ⟨_, _, n, hn2, _⟩
          cases hn2
    · rw [parseCorner, if_neg hc]
      constructor
      · intro h
        cases Except.ok.inj h
      · rintro ⟨h1, h2, _⟩
        exact absurd ⟨h1, h2⟩ hc
  · intro h1 h2 hn
    simp only [parseCorner, if_pos (And.intro h1 h2), hn]

/-- Claim C6, as stated, is false on the code: the corner 1/abc has a
present, nonempty texture-index field, yet no corner is stored — int raises
ValueError and the conversion aborts. -/
theorem nonempty_malformed_texindex_not_included :
    2 ≤ (splitOnP (fun c => c = '/') "1/abc".toList).length ∧
    (splitOnP (fun c => c = '/') "1/abc".toList).getD 1 [] ≠ [] ∧
    parseCorner "1/abc".toList = .error .valueErrorInt := by
  exact ⟨by decide, by decide, by decide⟩

/-- Witness for the amended claim C6: the ValueError branch at the concrete
corner 1/x. -/
theorem parseCorner_spec_witness :
    parseCorner "1/x".toList = .error .valueErrorInt :=
  (parseCorner_spec "1/x".toList 0).2.1 (by decide) (by decide) (by decide)

/-! ## Claim C3 -/

/-- Claim C3: the projection uses the fixed constants padding = 10 and
scale = 500, maps a vertex (u, v) to ((u − min_u)·scale + padding,
(max_v − v)·scale + padding) with the v axis flipped, sizes the canvas as
(max_u − min_u)·scale + 2·padding by (max_v − min_v)·scale + 2·padding for a
nonempty vertex set, and on the unit-square input yields a 520 × 520
canvas. -/
theorem projection_constants_and_canvas :
    padding = 10 ∧ scale = 500 ∧
    (∀ minU maxV u v : ℚ, transformPt minU maxV (u, v) =
      ((u - minU) * scale + padding, (maxV - v) * scale + padding)) ∧
    (∀ (vs : List (ℚ × ℚ)) (faces : List (List ℤ)), vs ≠ [] →
      (mkDoc vs faces).width =
        (listMax (vs.map Prod.fst) - listMin (vs.map Prod.fst)) * scale +
          2 * padding ∧
      (mkDoc vs faces).height =
        (listMax (vs.map Prod.snd) - listMin (vs.map Prod.snd)) * scale +
          2 * padding) ∧
    convertToSvg "unit.obj"
        ["vt 0 0", "vt 1 0", "vt 1 1", "vt 0 1", "f 1/1 2/2 3/3 4/4"] =
      .ok "unit.svg"
        { width := 520, height := 520,
          polys := [[(10, 510), (510, 510), (510, 10), (10, 10)]] } := by
  refine ⟨rfl, rfl, fun minU maxV u v => rfl, fun vs faces _ => ⟨rfl, rfl⟩,
    by decide⟩

/-- Witness for claim C3 at a one-vertex set. -/
theorem projection_constants_and_canvas_witness :
    (mkDoc [((0 : ℚ), (0 : ℚ))] []).width =
      (listMax ([((0 : ℚ), (0 : ℚ))].map Prod.fst) -
        listMin ([((0 : ℚ), (0 : ℚ))].map Prod.fst)) * scale + 2 * padding ∧
    (mkDoc [((0 : ℚ), (0 : ℚ))] []).height =
      (listMax ([((0 : ℚ), (0 : ℚ))].map Prod.snd) -
        listMin ([((0 : ℚ), (0 : ℚ))].map Prod.snd)) * scale + 2 * padding :=
  projection_constants_and_canvas.2.2.2.1 [((0 : ℚ), (0 : ℚ))] [] (by decide)

/-! ## Claim C9 -/

theorem dropWhile_append_of_all {p : Char → Bool} :
    ∀ (l m : List Char), (∀ x ∈ l, p x = true) →
      (l ++ m).dropWhile p = m.dropWhile p := by
  intro l
  induction l with
  | nil => intro m _; rfl
  | cons c t ih =>
    intro m h
    have hc := h c (List.mem_cons_self c t)
    simp only [List.cons_append, List.dropWhile_cons, hc, if_true]
    exact ih m (fun x hx => h x (List.mem_cons_of_mem c hx))

theorem dropWhile_eq_nil_of_all {p : Char → Bool} (l : List Char)
    (h : ∀ x ∈ l, p x = true) : l.dropWhile p = [] := by
  have h2 := dropWhile_append_of_all l [] h
  rw [List.append_nil] at h2
  rw [h2]
  rfl

/-- rsplit keeps a dot-free path unchanged. -/
theorem rstem_of_not_mem {s : List Char} (h : '.' ∉ s) : rstem s = s := by
  unfold rstem
  have hall : ∀ x ∈ s.reverse, (x != '.') = true := by
    intro x hx
    have hxs : x ∈ s := List.mem_reverse.mp hx
    have hxne : x ≠ '.' := fun e => h (e ▸ hxs)
    simp only [bne_iff_ne, ne_eq]
    exact hxne
  rw [dropWhile_eq_nil_of_all s.reverse hall]

/-- rsplit at the last dot: everything from the final dot on is dropped. -/
theorem rstem_append (a b : List Char) (h : '.' ∉ b) :
    rstem (a ++ '.' :: b) = a := by
  unfold rstem
  have hall : ∀ x ∈ b.reverse, (x != '.') = true := by
    intro x hx
    have hxs : x ∈ b := List.mem_reverse.mp hx
    have hxne : x ≠ '.' := fun e => h (e ▸ hxs)
    simp only [bne_iff_ne, ne_eq]
    exact hxne
  have h1 : (a ++ '.' :: b).reverse = b.reverse ++ '.' :: a.reverse := by
    simp [List.reverse_cons, List.reverse_append, List.append_assoc]
  rw [h1, dropWhile_append_of_all b.reverse ('.' :: a.reverse) hall]
  simp [List.dropWhile_cons]

/-- Claim C9: the output path drops the segment after the last dot of the
whole path string and appends the svg extension; a dot-free path is kept
whole and the extension appended, with no failure. -/
theorem svgPath_extension_replacement (a b : List Char) :
    ('.' ∉ a → svgPath (String.mk a) = String.mk (a ++ ".svg".toList)) ∧
    ('.' ∉ b → svgPath (String.mk (a ++ '.' :: b)) =
      String.mk (a ++ ".svg".toList)) := by
  constructor
  · intro h
    unfold svgPath svgPathL
    rw [show (String.mk a).toList = a from rfl, rstem_of_not_mem h]
  · intro h
    unfold svgPath svgPathL
    rw [show (String.mk (a ++ '.' :: b)).toList = a ++ '.' :: b from rfl,
      rstem_append a b h]

/-- Witness for claim C9 on a dot-free path and on a path with an
extension. -/
theorem svgPath_extension_replacement_witness :
    svgPath (String.mk "noext".toList) =
      String.mk ("noext".toList ++ ".svg".toList) ∧
    svgPath (String.mk ("mesh".toList ++ '.' :: "obj".toList)) =
      String.mk ("mesh".toList ++ ".svg".toList) :=
  ⟨(svgPath_extension_replacement "noext".toList "obj".toList).1 (by decide),
   (svgPath_extension_replacement "mesh".toList "obj".toList).2 (by decide)⟩

/-! ## Claim C8 -/

/-- Claim C8 amended: a successful parse with a nonempty vertex set always
produces exactly one file write, at the derived output path, also when the
document has zero polygons; the input file is not mutated provided the
derived path differs from the input path, which holds whenever the input
path does not already end in the svg extension (an input path ending in
.svg is overwritten — see the counterexample). -/
theorem successful_convert_writes_one_file (f : String) (lines : List String)
    (vs : List (ℚ × ℚ)) (fs : List (List ℤ))
    (hparse : parseLines (lines.map String.toList) = .ok (vs, fs))
    (hne : vs ≠ []) :
    convertToSvg f lines = .ok (svgPath f) (mkDoc vs fs) ∧
    writesOutput (convertToSvg f lines) = true ∧
    (¬ (".svg".toList <:+ f.toList) → svgPath f ≠ f) := by
  have hmain : convertToSvg f lines = .ok (svgPath f) (mkDoc vs fs) := by
    unfold convertToSvg
    rw [hparse]
    simp only [if_neg hne]
    rfl
  refine ⟨hmain, by rw [hmain]; rfl, ?_⟩
  intro hns heq
  apply hns
  have hdata : svgPathL f.toList = f.toList := congrArg String.toList heq
  rw [← hdata]
  exact ⟨rstem f.toList, rfl⟩

/-- Witness for the amended claim C8 on a small successful conversion. -/
theorem successful_convert_writes_one_file_witness :
    convertToSvg "m.obj" ["vt 0 0", "f 1/1"] =
      .ok (svgPath "m.obj") (mkDoc [(0, 0)] [[0]]) ∧
    writesOutput (convertToSvg "m.obj" ["vt 0 0", "f 1/1"]) = true ∧
    (¬ (".svg".toList <:+ "m.obj".toList) → svgPath "m.obj" ≠ "m.obj") :=
  successful_convert_writes_one_file "m.obj" ["vt 0 0", "f 1/1"]
    [(0, 0)] [[0]] (by decide) (by decide)

/-- Claim C8, as stated, is false on the code: for an input path already
ending in .svg, the derived output path equals the input path, so the single
write overwrites the input mesh file (the zero-polygon document is still a
successful write, as the claim says). -/
theorem output_overwrites_svg_input :
    convertToSvg "flat.svg" ["vt 0 0"] =
      .ok "flat.svg" { width := 20, height := 20, polys := [] } := by
  decide

/-! ## Claim C10 -/

/-- Claim C10: the conversion is deterministic — two runs on the same path
and file content give the same result — and the produced document depends
only on the file content, not on the path (the path only selects where the
output is written). -/
theorem convert_deterministic :
    (∀ (f : String) (lines : List String) (r1 r2 : ConvResult),
      convertToSvg f lines = r1 → convertToSvg f lines = r2 → r1 = r2) ∧
    (∀ (f g : String) (lines : List String),
      resultDoc (convertToSvg f lines) = resultDoc (convertToSvg g lines)) := by
  constructor
  · intro f lines r1 r2 h1 h2
    rw [← h1, ← h2]
  · intro f g lines
    unfold convertToSvg
    cases parseLines (lines.map String.toList) with
    | error e => rfl
    | ok p =>
      obtain ⟨vs, fs⟩ := p
      by_cases hv : vs = []
      · simp only [if_pos hv]
      · simp only [if_neg hv]
        rfl

/-- Witness for claim C10: two runs on the same concrete input agree. -/
theorem convert_deterministic_witness :
    ConvResult.ok "m.svg" { width := 20, height := 20, polys := [] } =
      ConvResult.ok "m.svg" { width := 20, height := 20, polys := [] } :=
  convert_deterministic.1 "m.obj" ["vt 0 0"]
    (.ok "m.svg" { width := 20, height := 20, polys := [] })
    (.ok "m.svg" { width := 20, height := 20, polys := [] })
    (by decide) (by decide)
